import Mathlib

/-!
Verification of the FrameSync content-catalogue and distribution engine.

The definitions below are a shallow embedding of the repository's Python
sources (`src/database.py`, `src/server.py`, `src/backfill_exif.py`,
`src/rotate_image.py`).  The SQLite metadata store is modelled as an
explicit record of tables; each Python function that opens a
`get_cursor()` context (one transaction with automatic commit/rollback)
becomes a Lean function from the database state to a new database state
paired with an `Except` result, where the error case returns the input
state unchanged (the rollback).  Timestamps are modelled as `Nat` values
of an abstract linearly ordered time domain; SQLite compares the stored
ISO text timestamps lexicographically, which agrees with this order.
-/

namespace FrameSync

/-- One row of the `users` table (`db_schema.sql` via `database.py`). -/
structure UserRow where
  ipAddress : String
  name : String
deriving DecidableEq

/-- One row of the `devices` table. -/
structure DeviceRow where
  deviceId : String
  name : String
  deviceType : String
deriving DecidableEq

/-- One row of the `images` table.  `id` is the SQLite rowid; EXIF columns
are independently nullable.  GPS coordinates are rationals standing for
the Python floats, `uploadTime`/`dateTaken` are abstract ordered
timestamps. -/
structure ImageRow where
  id : Nat
  filename : String
  uploaderIp : String
  fileSize : Option Nat
  mimeType : Option String
  width : Option Nat
  height : Option Nat
  uploadTime : Nat
  dateTaken : Option Nat
  cameraMake : Option String
  cameraModel : Option String
  gpsLatitude : Option Rat
  gpsLongitude : Option Rat
  gpsAltitude : Option Rat
  orientation : Option Nat
  exifJson : Option String
deriving DecidableEq

/-- One row of the `image_device_assignments` table.  The list order of
the assignment table below is insertion order, which is the
`assigned_at ASC` order used by `get_image_devices`. -/
structure Assignment where
  imageId : Nat
  deviceId : String
deriving DecidableEq

/-- The SQLite database state: one list per table, plus the next rowid
for `images`. -/
structure DB where
  users : List UserRow
  devices : List DeviceRow
  images : List ImageRow
  assignments : List Assignment
  nextId : Nat
deriving DecidableEq

/-- The empty database produced by `init_database`. -/
def emptyDB : DB := { users := [], devices := [], images := [], assignments := [], nextId := 0 }

/-- Errors raised inside a `get_cursor()` transaction.
`duplicateImage` is the UNIQUE violation on `images.filename`,
`notFound` is the `ValueError("Image not found")` of `set_image_devices`,
`uniqueViolation` is the IntegrityError on a duplicate
`(image_id, device_id)` assignment pair.
Modelled from the spec for the constraints: `db_schema.sql` is not under
`src/`; spec section 3 states filenames are unique and assignments are
"unique per pair". -/
inductive DbErr where
  | duplicateImage
  | notFound
  | uniqueViolation
deriving DecidableEq

instance instDecEqExcept {ε α : Type} [DecidableEq ε] [DecidableEq α] :
    DecidableEq (Except ε α)
  | Except.ok a, Except.ok b =>
    if h : a = b then Decidable.isTrue (by rw [h])
    else Decidable.isFalse (fun hh => h (by injection hh))
  | Except.ok _, Except.error _ => Decidable.isFalse (fun hh => Except.noConfusion hh)
  | Except.error _, Except.ok _ => Decidable.isFalse (fun hh => Except.noConfusion hh)
  | Except.error d, Except.error e =>
    if h : d = e then Decidable.isTrue (by rw [h])
    else Decidable.isFalse (fun hh => h (by injection hh))

/-- `database.create_or_update_user`: upsert keyed by `ip_address`. -/
def createOrUpdateUser (db : DB) (ip name : String) : DB :=
  if db.users.any (fun u => decide (u.ipAddress = ip)) then
    { db with users := db.users.map (fun u => if u.ipAddress = ip then { u with name := name } else u) }
  else
    { db with users := db.users ++ [⟨ip, name⟩] }

/-- Whether an image row with the given filename exists. -/
def imageExists (db : DB) (fn : String) : Bool :=
  db.images.any (fun i => decide (i.filename = fn))

/-- Whether a device row with the given device id exists. -/
def deviceExists (db : DB) (d : String) : Bool :=
  db.devices.any (fun x => decide (x.deviceId = d))

/-- `database.create_image`: inserts an image row.  The parameter list
mirrors the Python signature; parameters the caller omits arrive as
`none`, matching the Python `None` defaults.  `now` is the insertion
timestamp (the SQLite `upload_time` column default).  Fails with
`duplicateImage` when the filename is already taken (UNIQUE on
`images.filename`, modelled from the spec since `db_schema.sql` is not
under `src/`). -/
def createImage (db : DB) (fn ip : String) (fileSize : Option Nat)
    (mimeType : Option String) (w h : Option Nat)
    (dateTaken : Option Nat) (cameraMake cameraModel : Option String)
    (gpsLat gpsLon gpsAlt : Option Rat) (orientation : Option Nat)
    (exifJson : Option String) (now : Nat) : DB × Except DbErr ImageRow :=
  if imageExists db fn then
    (db, Except.error DbErr.duplicateImage)
  else
    let row : ImageRow :=
      { id := db.nextId, filename := fn, uploaderIp := ip,
        fileSize := fileSize, mimeType := mimeType, width := w, height := h,
        uploadTime := now, dateTaken := dateTaken, cameraMake := cameraMake,
        cameraModel := cameraModel, gpsLatitude := gpsLat,
        gpsLongitude := gpsLon, gpsAltitude := gpsAlt,
        orientation := orientation, exifJson := exifJson }
    ({ db with images := db.images ++ [row], nextId := db.nextId + 1 }, Except.ok row)

/-- The `SELECT id FROM images WHERE filename = ?` lookup. -/
def findImageId (db : DB) (fn : String) : Option Nat :=
  (db.images.find? (fun i => decide (i.filename = fn))).map (fun i => i.id)

/-- The insertion loop of `set_image_devices`: plain `INSERT` statements,
one per device id, executed in order.  An insert of a pair already
present raises the UNIQUE violation on the `(image_id, device_id)` pair
(spec section 3: assignments are "unique per pair"; `db_schema.sql` is
not under `src/`). -/
def insertAssignments (assigns : List Assignment) (imageId : Nat) :
    List String → Except DbErr (List Assignment)
  | [] => Except.ok assigns
  | d :: rest =>
    if (Assignment.mk imageId d) ∈ assigns then Except.error DbErr.uniqueViolation
    else insertAssignments (assigns ++ [⟨imageId, d⟩]) imageId rest

/-- `database.set_image_devices`: one transaction that looks up the
image id (raising `ValueError` = `notFound` when absent), deletes the
image's existing assignment rows, and inserts one row per given device
id.  Any failure rolls the whole transaction back (`get_cursor`), so the
error case returns the input state. -/
def setImageDevices (db : DB) (fn : String) (deviceIds : List String) :
    DB × Except DbErr Unit :=
  match findImageId db fn with
  | none => (db, Except.error DbErr.notFound)
  | some iid =>
    let remaining := db.assignments.filter (fun a => decide (¬ a.imageId = iid))
    match insertAssignments remaining iid deviceIds with
    | Except.ok assigns => ({ db with assignments := assigns }, Except.ok ())
    | Except.error e => (db, Except.error e)

/-- `database.get_image_devices`: device ids assigned to an image,
ordered by `assigned_at ASC` (insertion order); empty when the filename
has no image row (the SQL subquery yields NULL and the outer query no
rows). -/
def getImageDevices (db : DB) (fn : String) : List String :=
  match findImageId db fn with
  | none => []
  | some iid =>
    (db.assignments.filter (fun a => decide (a.imageId = iid))).map (fun a => a.deviceId)

/-- `database.delete_image`: deletes the image row by filename; the
assignment rows referencing it are cascade-deleted (`ON DELETE CASCADE`,
spec section 3, since `db_schema.sql` is not under `src/`).  Returns
whether a row existed. -/
def dbDeleteImage (db : DB) (fn : String) : DB × Bool :=
  let removedIds := (db.images.filter (fun i => decide (i.filename = fn))).map (fun i => i.id)
  let images := db.images.filter (fun i => decide (¬ i.filename = fn))
  let assigns := db.assignments.filter (fun a => decide (¬ a.imageId ∈ removedIds))
  ({ db with images := images, assignments := assigns }, imageExists db fn)

/-- `server.add_image_metadata`: upserts the uploader user row, creates
the image row, and — when the device list is nonempty — replaces the
assignment set.  Each of the three store calls opens its own
`get_cursor()` transaction and commits independently; the returned
database state is what is externally visible when the function returns
or raises. -/
def addImageMetadata (db : DB) (fn ip : String) (allowedDevices : List String)
    (fileSize : Option Nat) (mimeType : Option String) (w h : Option Nat)
    (now : Nat) : DB × Except DbErr ImageRow :=
  let db1 := createOrUpdateUser db ip ip
  match createImage db1 fn ip fileSize mimeType w h none none none none none none none none now with
  | (db2, Except.error e) => (db2, Except.error e)
  | (db2, Except.ok row) =>
    if allowedDevices.isEmpty then (db2, Except.ok row)
    else
      match setImageDevices db2 fn allowedDevices with
      | (db3, Except.ok _) => (db3, Except.ok row)
      | (db3, Except.error e) => (db3, Except.error e)

/-! ## Query side of the store (`database.get_all_images`, `get_device_images`) -/

/-- The `COALESCE(date_taken, upload_time)` sort key of
`get_all_images(sort_by='date_taken')`. -/
def sortKeyDateTaken (i : ImageRow) : Nat := i.dateTaken.getD i.uploadTime

/-- Descending order on the coalesced date-taken key (`ORDER BY
COALESCE(date_taken, upload_time) DESC`). -/
def byDateTakenDesc (a b : ImageRow) : Prop := sortKeyDateTaken b ≤ sortKeyDateTaken a

/-- Descending order on upload time (`ORDER BY upload_time DESC`). -/
def byUploadTimeDesc (a b : ImageRow) : Prop := b.uploadTime ≤ a.uploadTime

instance : DecidableRel byDateTakenDesc := fun _ _ => Nat.decLe _ _

instance : DecidableRel byUploadTimeDesc := fun _ _ => Nat.decLe _ _

instance : IsTotal ImageRow byDateTakenDesc := ⟨fun _ _ => Nat.le_total _ _⟩

instance : IsTotal ImageRow byUploadTimeDesc := ⟨fun _ _ => Nat.le_total _ _⟩

instance : IsTrans ImageRow byDateTakenDesc := ⟨fun _ _ _ h1 h2 => Nat.le_trans h2 h1⟩

instance : IsTrans ImageRow byUploadTimeDesc := ⟨fun _ _ _ h1 h2 => Nat.le_trans h2 h1⟩

/-- `database.get_all_images`: returns all image rows sorted by the
requested key descending; an unknown `sort_by` value is coerced to
`upload_time`.  `LIMIT ? OFFSET ?` applies only when a limit is given. -/
def getAllImages (db : DB) (sortBy : String) (limit : Option Nat) (offset : Nat) :
    List ImageRow :=
  let sb := if sortBy = "upload_time" ∨ sortBy = "date_taken" then sortBy else "upload_time"
  let sorted :=
    if sb = "date_taken" then List.insertionSort byDateTakenDesc db.images
    else List.insertionSort byUploadTimeDesc db.images
  match limit with
  | none => sorted
  | some l => (sorted.drop offset).take l

/-- `database.get_device_images`: the join of `images` with
`image_device_assignments` on the device id, ordered by
`upload_time DESC`.  Each assignment row of the device contributes the
image row whose SQLite id it references. -/
def getDeviceImages (db : DB) (d : String) : List ImageRow :=
  List.insertionSort byUploadTimeDesc
    ((db.assignments.filter (fun a => decide (a.deviceId = d))).filterMap
      (fun a => db.images.find? (fun i => decide (i.id = a.imageId))))

/-! ## Filesystem and server state (`server.py`) -/

/-- The upload and thumbnail directories, as association lists from
filename to byte size.  `fsSave` models `file.save` / `img.save`
(overwriting), `fsRemove` models `os.remove`. -/
structure FileSys where
  uploads : List (String × Nat)
  thumbs : List (String × Nat)
deriving DecidableEq

/-- `os.path.exists` / `os.path.getsize` on one directory. -/
def fsLookup (l : List (String × Nat)) (n : String) : Option Nat :=
  (l.find? (fun p => decide (p.1 = n))).map (fun p => p.2)

/-- Write a file, overwriting any entry of the same name. -/
def fsSave (l : List (String × Nat)) (n : String) (sz : Nat) : List (String × Nat) :=
  (n, sz) :: l.filter (fun p => decide (¬ p.1 = n))

/-- Delete a file by name. -/
def fsRemove (l : List (String × Nat)) (n : String) : List (String × Nat) :=
  l.filter (fun p => decide (¬ p.1 = n))

/-- The whole server-visible state: the two storage trees, the SQLite
database, and the process-wide `current_image_state` global. -/
structure ServerState where
  fs : FileSys
  db : DB
  currentImage : Option String
deriving DecidableEq

/-- `server.calculate_storage_usage` (happy path: every `os.path.getsize`
succeeds).  `quota_available_bytes = max(0, quota - total)` is Nat
truncated subtraction. -/
structure StorageReport where
  totalBytes : Nat
  imagesBytes : Nat
  thumbnailsBytes : Nat
  imageCount : Nat
  thumbnailCount : Nat
  quotaBytes : Nat
  quotaAvailableBytes : Nat
deriving DecidableEq

/-- Walk both storage trees and total the byte sizes. -/
def calculateStorageUsage (quota : Nat) (fs : FileSys) : StorageReport :=
  let ib := (fs.uploads.map (fun p => p.2)).sum
  let tb := (fs.thumbs.map (fun p => p.2)).sum
  { totalBytes := ib + tb, imagesBytes := ib, thumbnailsBytes := tb,
    imageCount := fs.uploads.length, thumbnailCount := fs.thumbs.length,
    quotaBytes := quota, quotaAvailableBytes := quota - (ib + tb) }

/-- `werkzeug.utils.secure_filename` belongs to the excluded HTTP layer
(an external collaborator, not code of this repository); it is modelled
as the identity, with which it agrees on names that are already safe —
all filenames appearing in the claims. -/
def secureFilename (s : String) : String := s

/-- Split a character list at its last `'.'`: the characters before it
and after it, or `none` when no dot occurs.  This is the common core of
Python's `filename.rsplit('.', 1)` and `os.path.splitext`. -/
def splitAtLastDot : List Char → Option (List Char × List Char)
  | [] => none
  | c :: rest =>
    match splitAtLastDot rest with
    | some (pre, post) => some (c :: pre, post)
    | none => if c = '.' then some ([], rest) else none

/-- ASCII lowercasing of one character (`str.lower` on the ASCII
extension strings the server compares). -/
def lowerChar (c : Char) : Char :=
  if 'A' ≤ c ∧ c ≤ 'Z' then Char.ofNat (c.toNat + 32) else c

/-- ASCII `str.lower`. -/
def lowerString (s : String) : String := String.mk (s.data.map lowerChar)

/-- `server.allowed_file`: `'.' in filename` and the part after the last
dot, lowercased, is in the fixed extension set. -/
def allowedFile (s : String) : Bool :=
  match splitAtLastDot s.data with
  | none => false
  | some (_, post) =>
    decide (lowerString (String.mk post) ∈ ["png", "jpg", "jpeg", "gif", "bmp"])

/-- `os.path.splitext` on ordinary names: split at the last dot, the dot
going with the extension; no dot means an empty extension. -/
def splitExt (s : String) : String × String :=
  match splitAtLastDot s.data with
  | none => (s, "")
  | some (pre, post) => (String.mk pre, String.mk ('.' :: post))

/-- The collision-avoiding stored name of `upload_file`:
`f"{name}_{timestamp}{ext}"` applied to the sanitized original name. -/
def derivedName (orig ts : String) : String :=
  let s := secureFilename orig
  let p := splitExt s
  p.1 ++ "_" ++ ts ++ p.2

/-- The extension-to-MIME map of `add_image_metadata` (`mime_map.get`
yields `None` for an unknown or missing extension). -/
def mimeFromExt (fn : String) : Option String :=
  match splitAtLastDot fn.data with
  | none => none
  | some (_, post) =>
    let ext := lowerString (String.mk post)
    if ext = "jpg" ∨ ext = "jpeg" then some "image/jpeg"
    else if ext = "png" then some "image/png"
    else if ext = "gif" then some "image/gif"
    else if ext = "bmp" then some "image/bmp"
    else none

/-- What the upload request carries, with the properties of the byte
stream the external image library reports: its length, whether the full
structural decode (`Image.open` + `verify` + `load`) succeeds, the
decoded dimensions, and the byte size of the derived thumbnail when
thumbnail generation succeeds (`none` = best-effort failure). -/
structure UploadInput where
  origName : String
  size : Nat
  decodable : Bool
  width : Nat
  height : Nat
  thumbnail : Option Nat
  uploaderIp : String
  allowedDevices : List String
deriving DecidableEq

/-- Outcome of `upload_file`, one constructor per response branch. -/
inductive UploadResult where
  | emptyFilename
  | invalidFileType
  | quotaExceeded
  | invalidImage
  | uploaded (img : ImageRow)
  | uploadError
deriving DecidableEq

/-- `server.upload_file`: extension gate, quota pre-check against the
incoming byte length, persist under the timestamped name, full
structural decode (deleting the file and failing on an undecodable
byte stream), best-effort thumbnail, then `add_image_metadata`.  A store
error during registration is caught by the outer handler and reported
as `UPLOAD_ERROR`; the file and any committed rows stay as they are. -/
def uploadFile (quota : Nat) (st : ServerState) (inp : UploadInput)
    (ts : String) (now : Nat) : ServerState × UploadResult :=
  if inp.origName = "" then (st, UploadResult.emptyFilename)
  else if ¬ allowedFile inp.origName then (st, UploadResult.invalidFileType)
  else if (calculateStorageUsage quota st.fs).quotaAvailableBytes < inp.size then
    (st, UploadResult.quotaExceeded)
  else
    let fn := derivedName inp.origName ts
    let fs1 : FileSys := { st.fs with uploads := fsSave st.fs.uploads fn inp.size }
    if ¬ inp.decodable then
      ({ st with fs := { fs1 with uploads := fsRemove fs1.uploads fn } },
        UploadResult.invalidImage)
    else
      let fs2 : FileSys :=
        match inp.thumbnail with
        | some tsz => { fs1 with thumbs := fsSave fs1.thumbs fn tsz }
        | none => fs1
      match addImageMetadata st.db fn inp.uploaderIp inp.allowedDevices
          (some inp.size) (mimeFromExt fn) (some inp.width) (some inp.height) now with
      | (db2, Except.ok img) =>
        ({ fs := fs2, db := db2, currentImage := st.currentImage }, UploadResult.uploaded img)
      | (db2, Except.error _) =>
        ({ fs := fs2, db := db2, currentImage := st.currentImage }, UploadResult.uploadError)

/-! ## Device content selector (`server.get_next_image_for_device`) -/

/-- Outcome of the per-device next-image endpoint. -/
inductive PickResult where
  | deviceNotFound
  | noContent
  | picked (img : ImageRow)
deriving DecidableEq

/-- `random.choice` over a nonempty list, with the random draw supplied
as an arbitrary index `c` (reduced modulo the length). -/
def chooseFrom (x : α) (xs : List α) (c : Nat) : α :=
  (x :: xs).get ⟨c % (x :: xs).length, Nat.mod_lt _ (Nat.succ_pos xs.length)⟩

/-- The selection core of `get_next_image_for_device`: empty allowed
list → no content; otherwise drop the currently displayed image, fall
back to the full list when nothing else remains, and draw from the
result. -/
def pickFrom (images : List ImageRow) (current : Option String) (c : Nat) : PickResult :=
  match images with
  | [] => PickResult.noContent
  | x :: xs =>
    match (x :: xs).filter (fun i => decide (¬ some i.filename = current)) with
    | [] => PickResult.picked (chooseFrom x xs c)
    | y :: ys => PickResult.picked (chooseFrom y ys c)

/-- `server.get_next_image_for_device`: 404 on an unknown device, else
select from the device's assigned images against the process-wide
current-image pointer. -/
def pickNext (st : ServerState) (d : String) (c : Nat) : PickResult :=
  if deviceExists st.db d then pickFrom (getDeviceImages st.db d) st.currentImage c
  else PickResult.deviceNotFound

/-! ## Single and bulk delete (`server.delete_image`, `server.bulk_delete_images`) -/

/-- Outcome of the single-image delete endpoint. -/
inductive DeleteResult where
  | fileNotFound
  | deleted
deriving DecidableEq

/-- `server.delete_image` (happy path: the `os.remove` calls succeed):
404 when the file is absent, else remove the file, remove the thumbnail
if present, delete the catalogue row, and clear the process-wide
current-image pointer when it named this file. -/
def deleteImageEndpoint (st : ServerState) (f : String) : ServerState × DeleteResult :=
  let fn := secureFilename f
  match fsLookup st.fs.uploads fn with
  | none => (st, DeleteResult.fileNotFound)
  | some _ =>
    let fs1 : FileSys := { uploads := fsRemove st.fs.uploads fn,
                           thumbs := fsRemove st.fs.thumbs fn }
    let db1 := (dbDeleteImage st.db fn).1
    let cur := if st.currentImage = some fn then none else st.currentImage
    ({ fs := fs1, db := db1, currentImage := cur }, DeleteResult.deleted)

/-- One error entry of a bulk-operation summary. -/
structure BulkItemError where
  filename : String
  error : String
deriving DecidableEq

/-- The result payload of `bulk_delete_images`. -/
structure BulkDeleteSummary where
  deletedCount : Nat
  requestedCount : Nat
  errors : List BulkItemError
deriving DecidableEq

/-- Outcome of the bulk-delete endpoint: a 400 rejection, the
`deleted_count == 0` failure response, a partial success, or a full
success. -/
inductive BulkDeleteResult where
  | badRequest (msg : String)
  | allFailed (s : BulkDeleteSummary)
  | partialSuccess (s : BulkDeleteSummary)
  | fullSuccess (s : BulkDeleteSummary)
deriving DecidableEq

/-- One iteration of the `bulk_delete_images` loop (happy path: the
`os.remove` and store calls raise nothing, so the only error entry comes
from an empty sanitized name): remove the main file when present
(counting it), remove the thumbnail when present, and delete the
catalogue row regardless, ignoring its result. -/
def bulkDeleteStep (st : ServerState) (cnt : Nat) (errs : List BulkItemError)
    (fn0 : String) : ServerState × Nat × List BulkItemError :=
  let fn := secureFilename fn0
  if fn = "" then (st, cnt, errs ++ [⟨fn, "Invalid filename"⟩])
  else
    let (ups, inc) :=
      match fsLookup st.fs.uploads fn with
      | some _ => (fsRemove st.fs.uploads fn, 1)
      | none => (st.fs.uploads, 0)
    let ths :=
      match fsLookup st.fs.thumbs fn with
      | some _ => fsRemove st.fs.thumbs fn
      | none => st.fs.thumbs
    let db1 := (dbDeleteImage st.db fn).1
    ({ fs := { uploads := ups, thumbs := ths }, db := db1,
       currentImage := st.currentImage }, cnt + inc, errs)

/-- `server.bulk_delete_images`: reject an empty list or more than 100
items, iterate `bulkDeleteStep` over the filenames, and classify the
summary (all failed / partial / full success). -/
def bulkDeleteImages (st : ServerState) (filenames : List String) :
    ServerState × BulkDeleteResult :=
  if filenames.isEmpty then (st, BulkDeleteResult.badRequest "No filenames provided")
  else if 100 < filenames.length then
    (st, BulkDeleteResult.badRequest "Cannot delete more than 100 images at once")
  else
    let r := filenames.foldl
      (fun (p : ServerState × Nat × List BulkItemError) fn =>
        bulkDeleteStep p.1 p.2.1 p.2.2 fn) (st, 0, [])
    let summary : BulkDeleteSummary := ⟨r.2.1, filenames.length, r.2.2⟩
    if r.2.1 = 0 then (r.1, BulkDeleteResult.allFailed summary)
    else if ¬ r.2.2.isEmpty then (r.1, BulkDeleteResult.partialSuccess summary)
    else (r.1, BulkDeleteResult.fullSuccess summary)

/-! ## EXIF GPS conversion (`backfill_exif.extract_exif_data`) -/

/-- Degrees-minutes-seconds to decimal degrees:
`float(t[0]) + float(t[1])/60 + float(t[2])/3600`, with rationals
standing for the Python floats. -/
def gpsTripleToDecimal (d m s : Rat) : Rat := d + m / 60 + s / 3600

/-- The latitude branch of `extract_exif_data`: negate exactly when the
hemisphere reference is the string "S". -/
def convertGpsLatitude (d m s : Rat) (ref : String) : Rat :=
  let dec := gpsTripleToDecimal d m s
  if ref = "S" then -dec else dec

/-- The longitude branch of `extract_exif_data`: negate exactly when the
hemisphere reference is the string "W". -/
def convertGpsLongitude (d m s : Rat) (ref : String) : Rat :=
  let dec := gpsTripleToDecimal d m s
  if ref = "W" then -dec else dec

/-! ## Helper lemmas -/

/-- A successful insertion loop appends exactly one assignment row per
device id, in order. -/
theorem insertAssignments_ok (iid : Nat) :
    ∀ (ds : List String) (as r : List Assignment),
      insertAssignments as iid ds = Except.ok r →
      r = as ++ ds.map (fun d => ⟨iid, d⟩) := by
  intro ds
  induction ds with
  | nil =>
    intro as r h
    simp only [insertAssignments] at h
    cases h
    simp
  | cons d rest ih =>
    intro as r h
    simp only [insertAssignments] at h
    split at h
    · cases h
    · have := ih (as ++ [⟨iid, d⟩]) r h
      simpa [List.append_assoc] using this

theorem filter_imageId_of_removed (l : List Assignment) (iid : Nat) :
    (l.filter (fun a => decide (¬ a.imageId = iid))).filter
      (fun a => decide (a.imageId = iid)) = [] := by
  induction l with
  | nil => rfl
  | cons a t ih =>
    by_cases h : a.imageId = iid <;> simp [List.filter, h, ih]

theorem createOrUpdateUser_images (db : DB) (ip n : String) :
    (createOrUpdateUser db ip n).images = db.images := by
  unfold createOrUpdateUser; split <;> rfl

theorem createOrUpdateUser_assignments (db : DB) (ip n : String) :
    (createOrUpdateUser db ip n).assignments = db.assignments := by
  unfold createOrUpdateUser; split <;> rfl

theorem createOrUpdateUser_nextId (db : DB) (ip n : String) :
    (createOrUpdateUser db ip n).nextId = db.nextId := by
  unfold createOrUpdateUser; split <;> rfl

theorem setImageDevices_images (db : DB) (fn : String) (ds : List String) :
    (setImageDevices db fn ds).1.images = db.images := by
  simp only [setImageDevices]
  split
  · rfl
  · split <;> rfl

theorem setImageDevices_error_state (db : DB) (fn : String) (ds : List String)
    (h : (setImageDevices db fn ds).2.isOk = false) :
    (setImageDevices db fn ds).1 = db := by
  simp only [setImageDevices] at h ⊢
  split at h
  · rfl
  · split at h
    · simp [Except.isOk, Except.toBool] at h
    · rfl

/-! ## C3: assignment replacement round-trip -/

/-- C3: for every image catalogue state, filename and device-id list,
a successful `setImageDevices(f, S)` makes `getImageDevices(f)` equal to
`S` as a set (in fact as a list); and when no image row carries the
filename, `setImageDevices` fails with `NotFound` and returns the store
unchanged. -/
theorem setImageDevices_roundtrip (db : DB) (f : String) (S : List String) :
    ((setImageDevices db f S).2 = Except.ok () →
      (getImageDevices (setImageDevices db f S).1 f).toFinset = S.toFinset)
    ∧ ((∀ i ∈ db.images, i.filename ≠ f) →
      setImageDevices db f S = (db, Except.error DbErr.notFound)) := by
  constructor
  · intro hok
    simp only [setImageDevices] at hok ⊢
    cases hfind : findImageId db f with
    | none => simp only [hfind] at hok; cases hok
    | some iid =>
      simp only [hfind] at hok ⊢
      cases hins : insertAssignments
          (db.assignments.filter (fun a => decide (¬ a.imageId = iid))) iid S with
      | error e => simp only [hins] at hok; cases hok
      | ok assigns =>
        simp only [hins]
        have hr := insertAssignments_ok iid S _ assigns hins
        have hfind2 : findImageId { db with assignments := assigns } f = some iid := hfind
        unfold getImageDevices
        rw [hfind2]
        simp only [hr, List.filter_append, filter_imageId_of_removed, List.nil_append]
        have hfilter :
            (S.map (fun d => (⟨iid, d⟩ : Assignment))).filter
              (fun a => decide (a.imageId = iid))
              = S.map (fun d => (⟨iid, d⟩ : Assignment)) := by
          rw [List.filter_eq_self]
          intro a ha
          rcases List.mem_map.mp ha with ⟨d, _, rfl⟩
          simp
        rw [hfilter, List.map_map]
        have : ((fun a : Assignment => a.deviceId) ∘ fun d => (⟨iid, d⟩ : Assignment))
            = fun d : String => d := rfl
        rw [this, List.map_id']
  · intro habsent
    have hfind : findImageId db f = none := by
      unfold findImageId
      rw [List.find?_eq_none.mpr]
      · rfl
      · intro i hi
        simpa using habsent i hi
    unfold setImageDevices
    rw [hfind]

/-- A one-image store for the assignment round-trip demonstration. -/
def assignDemoDB : DB :=
  { emptyDB with
    images := [⟨0, "a.jpg", "u", none, none, none, none, 1, none, none,
                none, none, none, none, none, none⟩]
    nextId := 1 }

/-- C3 witness: a concrete successful replacement on a one-image store
round-trips as a set, and a concrete replacement on an absent filename
fails `NotFound` leaving the empty store unchanged. -/
theorem setImageDevices_roundtrip_witness :
    (getImageDevices (setImageDevices assignDemoDB "a.jpg" ["d2", "d1"]).1 "a.jpg").toFinset
      = (["d2", "d1"] : List String).toFinset
    ∧ setImageDevices emptyDB "ghost.jpg" ["d1"]
        = (emptyDB, Except.error DbErr.notFound) :=
  ⟨(setImageDevices_roundtrip assignDemoDB "a.jpg" ["d2", "d1"]).1 (by decide),
   (setImageDevices_roundtrip emptyDB "ghost.jpg" ["d1"]).2 (by decide)⟩

/-! ## C1: ingestion registration is not one store transaction -/

/-- C1 counterexample: ingesting `a.jpg` with the device-id list
`["d1", "d1"]` makes the assignment replacement fail (duplicate
`(image_id, device_id)` pair) after the image row insert already
committed in its own transaction, yet the image row for `a.jpg` remains
externally visible — refuting the claim that all partial effects are
rolled back before the error reaches the caller. -/
theorem addImageMetadata_partial_commit_cex :
    (addImageMetadata emptyDB "a.jpg" "1.2.3.4" ["d1", "d1"] (some 500)
        (some "image/jpeg") (some 800) (some 600) 1).2
      = Except.error DbErr.uniqueViolation
    ∧ imageExists (addImageMetadata emptyDB "a.jpg" "1.2.3.4" ["d1", "d1"] (some 500)
        (some "image/jpeg") (some 800) (some 600) 1).1 "a.jpg" = true := by
  decide

/-- C1 (amended): each store-level step of registration is individually
transactional, but the catalogue-row insert and the assignment
replacement run in separate transactions.  When registration of a fresh
filename fails after the image row insert, only the failing assignment
replacement is rolled back (the assignment table is exactly as before),
while the committed image row for that filename remains externally
visible when the error reaches the caller. -/
theorem addImageMetadata_commits_image_row_on_failure
    (db : DB) (fn ip : String) (devs : List String)
    (fsz : Option Nat) (mt : Option String) (w h : Option Nat) (now : Nat)
    (db2 : DB) (e : DbErr)
    (hfresh : imageExists db fn = false)
    (herr : addImageMetadata db fn ip devs fsz mt w h now = (db2, Except.error e)) :
    imageExists db2 fn = true ∧ db2.assignments = db.assignments := by
  have hfresh1 : imageExists (createOrUpdateUser db ip ip) fn = false := by
    unfold imageExists
    rw [createOrUpdateUser_images]
    exact hfresh
  simp only [addImageMetadata, createImage, hfresh1, Bool.false_eq_true, if_false] at herr
  by_cases hdevs : devs.isEmpty
  · simp [hdevs] at herr
  · rw [Bool.not_eq_true] at hdevs
    simp only [hdevs, Bool.false_eq_true, if_false] at herr
    split at herr
    · simp at herr
    · rename_i db3 e2 hseteq
      injection herr with hdb he
      subst hdb
      have hst : (setImageDevices
          { users := (createOrUpdateUser db ip ip).users,
            devices := (createOrUpdateUser db ip ip).devices,
            images := (createOrUpdateUser db ip ip).images ++
              [{ id := (createOrUpdateUser db ip ip).nextId, filename := fn, uploaderIp := ip,
                 fileSize := fsz, mimeType := mt, width := w, height := h, uploadTime := now,
                 dateTaken := none, cameraMake := none, cameraModel := none, gpsLatitude := none,
                 gpsLongitude := none, gpsAltitude := none, orientation := none, exifJson := none }],
            assignments := (createOrUpdateUser db ip ip).assignments,
            nextId := (createOrUpdateUser db ip ip).nextId + 1 } fn devs).2.isOk = false := by
        rw [hseteq]
        rfl
      have hdb3 := setImageDevices_error_state _ fn devs hst
      rw [hseteq] at hdb3
      simp only at hdb3
      rw [hdb3]
      constructor
      · simp [imageExists]
      · simp [createOrUpdateUser_assignments]

/-- C1 witness: the amended theorem applied to the counterexample
ingestion request. -/
theorem addImageMetadata_commits_image_row_on_failure_witness :
    imageExists (addImageMetadata emptyDB "a.jpg" "1.2.3.4" ["d1", "d1"] (some 500)
        (some "image/jpeg") (some 800) (some 600) 1).1 "a.jpg" = true
    ∧ (addImageMetadata emptyDB "a.jpg" "1.2.3.4" ["d1", "d1"] (some 500)
        (some "image/jpeg") (some 800) (some 600) 1).1.assignments = emptyDB.assignments :=
  addImageMetadata_commits_image_row_on_failure emptyDB "a.jpg" "1.2.3.4" ["d1", "d1"]
    (some 500) (some "image/jpeg") (some 800) (some 600) 1
    (addImageMetadata emptyDB "a.jpg" "1.2.3.4" ["d1", "d1"] (some 500)
      (some "image/jpeg") (some 800) (some 600) 1).1
    DbErr.uniqueViolation (by decide) (by decide)

/-! ## C5: listing order -/

theorem getAllImages_dateTaken_eq (db : DB) : getAllImages db "date_taken" none 0
    = List.insertionSort byDateTakenDesc db.images := rfl

theorem getAllImages_uploadTime_eq (db : DB) : getAllImages db "upload_time" none 0
    = List.insertionSort byUploadTimeDesc db.images := rfl

/-- C5: `listImages(date_taken)` returns a permutation of the catalogue
ordered descending by the single coalesced key `date_taken` falling back
to `upload_time` (one interleaved ordering, not two segregated groups),
and the default `listImages(upload_time)` returns a permutation ordered
by `upload_time` descending. -/
theorem getAllImages_sort_contract (db : DB) :
    (getAllImages db "date_taken" none 0).Perm db.images
    ∧ List.Sorted byDateTakenDesc (getAllImages db "date_taken" none 0)
    ∧ (getAllImages db "upload_time" none 0).Perm db.images
    ∧ List.Sorted byUploadTimeDesc (getAllImages db "upload_time" none 0) := by
  refine ⟨?_, ?_, ?_, ?_⟩
  · rw [getAllImages_dateTaken_eq]; exact List.perm_insertionSort _ _
  · rw [getAllImages_dateTaken_eq]; exact List.sorted_insertionSort _ _
  · rw [getAllImages_uploadTime_eq]; exact List.perm_insertionSort _ _
  · rw [getAllImages_uploadTime_eq]; exact List.sorted_insertionSort _ _

/-! ## C7: GPS degree/minute/second conversion -/

/-- C7: the EXIF GPS conversion yields the signed decimal degrees
`d + m/60 + s/3600`, negated exactly when the hemisphere reference is
"S" (latitude) or "W" (longitude); in particular `(40°, 26′, 46″)` with
reference "N" is within `10⁻⁶` of `40.446111`. -/
theorem gps_conversion_signed_decimal :
    (∀ d m s : Rat, ∀ ref : String,
      convertGpsLatitude d m s ref
        = (if ref = "S" then -(d + m / 60 + s / 3600) else d + m / 60 + s / 3600))
    ∧ (∀ d m s : Rat, ∀ ref : String,
      convertGpsLongitude d m s ref
        = (if ref = "W" then -(d + m / 60 + s / 3600) else d + m / 60 + s / 3600))
    ∧ |convertGpsLatitude 40 26 46 "N" - 40446111 / 1000000| < 1 / 1000000 := by
  refine ⟨fun d m s ref => rfl, fun d m s ref => rfl, ?_⟩
  rw [abs_sub_lt_iff]
  have hns : ¬ ("N" : String) = "S" := by decide
  norm_num [convertGpsLatitude, gpsTripleToDecimal, hns]

/-! ## C4: rotation properties of the selector -/

theorem chooseFrom_mem (x : α) (xs : List α) (c : Nat) : chooseFrom x xs c ∈ x :: xs :=
  List.get_mem _ _ _

theorem chooseFrom_singleton (x : α) (c : Nat) : chooseFrom x [] c = x := by
  simp [chooseFrom, Nat.mod_one]

theorem pickFrom_cons (x : ImageRow) (xs : List ImageRow) (cur : Option String) (c : Nat) :
    pickFrom (x :: xs) cur c =
      match (x :: xs).filter (fun j => decide (¬ some j.filename = cur)) with
      | [] => PickResult.picked (chooseFrom x xs c)
      | y :: ys => PickResult.picked (chooseFrom y ys c) := rfl

theorem pickFrom_picked_mem (l : List ImageRow) (cur : Option String) (c : Nat) (i : ImageRow)
    (h : pickFrom l cur c = PickResult.picked i) : i ∈ l := by
  cases l with
  | nil => cases h
  | cons x xs =>
    rw [pickFrom_cons] at h
    cases hF : (x :: xs).filter (fun j => decide (¬ some j.filename = cur)) with
    | nil =>
      rw [hF] at h
      injection h with h2
      rw [← h2]
      exact chooseFrom_mem x xs c
    | cons y ys =>
      rw [hF] at h
      injection h with h2
      rw [← h2]
      have hmem : chooseFrom y ys c ∈ y :: ys := chooseFrom_mem y ys c
      rw [← hF] at hmem
      exact List.mem_of_mem_filter hmem

theorem pickFrom_single (x : ImageRow) (cur : Option String) (c : Nat) :
    pickFrom [x] cur c = PickResult.picked x := by
  rw [pickFrom_cons]
  by_cases hp : (¬ some x.filename = cur)
  · have hF : [x].filter (fun j => decide (¬ some j.filename = cur)) = [x] := by
      simp [List.filter, hp]
    rw [hF]
    exact congrArg PickResult.picked (chooseFrom_singleton x c)
  · have hF : [x].filter (fun j => decide (¬ some j.filename = cur)) = [] := by
      simp [List.filter, hp]
    rw [hF]
    exact congrArg PickResult.picked (chooseFrom_singleton x c)

theorem pickFrom_pair (x y : ImageRow) (c : Nat) (hne : x.filename ≠ y.filename) :
    pickFrom [x, y] (some x.filename) c = PickResult.picked y := by
  rw [pickFrom_cons]
  have hF : [x, y].filter (fun j => decide (¬ some j.filename = some x.filename)) = [y] := by
    simp [List.filter, Ne.symm hne]
  rw [hF]
  exact congrArg PickResult.picked (chooseFrom_singleton y c)

/-- With at least two distinct filenames in the allowed list, the
filtered candidate set is nonempty, so the fallback to the full list is
never taken and the picked image differs from the current one. -/
theorem pickFrom_ne_current (l : List ImageRow) (cur : String) (c : Nat) (i : ImageRow)
    (hdist : 2 ≤ (l.map (fun j => j.filename)).dedup.length)
    (hpick : pickFrom l (some cur) c = PickResult.picked i) :
    i.filename ≠ cur := by
  cases l with
  | nil => cases hpick
  | cons x xs =>
    have hFne : (x :: xs).filter (fun j => decide (¬ some j.filename = some cur)) ≠ [] := by
      intro hF
      have hall : ∀ j ∈ x :: xs, j.filename = cur := by
        intro j hj
        have := List.filter_eq_nil_iff.mp hF j hj
        simpa using this
      have hle : ((x :: xs).map (fun j => j.filename)).dedup.length ≤ 1 := by
        have hmem : ∀ y ∈ ((x :: xs).map (fun j => j.filename)).dedup, y = cur := by
          intro y hy
          rcases List.mem_map.mp (List.mem_dedup.mp hy) with ⟨j, hj, rfl⟩
          exact hall j hj
        cases hd : ((x :: xs).map (fun j => j.filename)).dedup with
        | nil => simp
        | cons a t =>
          cases t with
          | nil => simp
          | cons b t2 =>
            exfalso
            have hnd := List.nodup_dedup ((x :: xs).map (fun j => j.filename))
            rw [hd] at hnd
            have ha := hmem a (by rw [hd]; exact List.mem_cons_self _ _)
            have hb := hmem b (by rw [hd]; simp)
            rw [List.nodup_cons] at hnd
            exact hnd.1 (by rw [ha, hb]; exact List.mem_cons_self _ _)
      omega
    rw [pickFrom_cons] at hpick
    cases hF : (x :: xs).filter (fun j => decide (¬ some j.filename = some cur)) with
    | nil => exact absurd hF hFne
    | cons y ys =>
      rw [hF] at hpick
      injection hpick with h2
      have hmem : chooseFrom y ys c ∈ y :: ys := chooseFrom_mem y ys c
      rw [← hF] at hmem
      have hp := List.of_mem_filter hmem
      rw [h2] at hp
      simpa using hp

theorem pickNext_eq (st : ServerState) (d : String) (c : Nat)
    (hdev : deviceExists st.db d = true) :
    pickNext st d c = pickFrom (getDeviceImages st.db d) st.currentImage c := by
  simp [pickNext, hdev]

/-- C4: for an existing device, (1) an empty allowed set yields
`NoContent`; (2) a one-element allowed set always yields that element,
whatever random draw is made; (3) with at least two distinct allowed
filenames and the current image among them, no random draw ever yields
the currently displayed image; (4) with allowed set `{x, y}` and current
`x`, every draw deterministically yields `y`. -/
theorem pickNext_rotation (st : ServerState) (d : String)
    (hdev : deviceExists st.db d = true) :
    (getDeviceImages st.db d = [] → ∀ c, pickNext st d c = PickResult.noContent)
    ∧ (∀ x, getDeviceImages st.db d = [x] → ∀ c, pickNext st d c = PickResult.picked x)
    ∧ (2 ≤ ((getDeviceImages st.db d).map (fun j => j.filename)).dedup.length →
        ∀ cur, st.currentImage = some cur →
        cur ∈ (getDeviceImages st.db d).map (fun j => j.filename) →
        ∀ c i, pickNext st d c = PickResult.picked i → i.filename ≠ cur)
    ∧ (∀ x y, getDeviceImages st.db d = [x, y] → x.filename ≠ y.filename →
        st.currentImage = some x.filename → ∀ c, pickNext st d c = PickResult.picked y) := by
  refine ⟨?_, ?_, ?_, ?_⟩
  · intro hempty c
    rw [pickNext_eq st d c hdev, hempty]
    rfl
  · intro x hsingle c
    rw [pickNext_eq st d c hdev, hsingle]
    exact pickFrom_single x st.currentImage c
  · intro hdist cur hcur hmem c i hpick
    rw [pickNext_eq st d c hdev, hcur] at hpick
    exact pickFrom_ne_current (getDeviceImages st.db d) cur c i hdist hpick
  · intro x y hpair hne hcur c
    rw [pickNext_eq st d c hdev, hpair, hcur]
    exact pickFrom_pair x y c hne

/-- An allowed image of the demonstration device, currently displayed. -/
def pickDemoRowX : ImageRow :=
  ⟨1, "x.jpg", "u", none, none, none, none, 10, none, none, none, none, none, none, none, none⟩

/-- The other allowed image of the demonstration device. -/
def pickDemoRowY : ImageRow :=
  ⟨2, "y.jpg", "u", none, none, none, none, 5, none, none, none, none, none, none, none, none⟩

/-- Demonstration state: device `d1` with allowed set `{x.jpg, y.jpg}`
and `x.jpg` currently displayed. -/
def pickDemoState : ServerState :=
  { fs := ⟨[], []⟩,
    db := { users := [], devices := [⟨"d1", "Frame", "display"⟩],
            images := [pickDemoRowX, pickDemoRowY],
            assignments := [⟨1, "d1"⟩, ⟨2, "d1"⟩], nextId := 3 },
    currentImage := some "x.jpg" }

/-- Demonstration state: device `d1` with an empty allowed set. -/
def pickEmptyState : ServerState :=
  { fs := ⟨[], []⟩,
    db := { users := [], devices := [⟨"d1", "Frame", "display"⟩],
            images := [], assignments := [], nextId := 0 },
    currentImage := none }

/-- Demonstration state: device `d1` with allowed set `{x.jpg}`, which
is also the currently displayed image. -/
def pickSingleState : ServerState :=
  { fs := ⟨[], []⟩,
    db := { users := [], devices := [⟨"d1", "Frame", "display"⟩],
            images := [pickDemoRowX], assignments := [⟨1, "d1"⟩], nextId := 2 },
    currentImage := some "x.jpg" }

/-- C4 witness: the four conjuncts of the rotation theorem applied to
concrete selector states and concrete random draws. -/
theorem pickNext_rotation_witness :
    pickNext pickEmptyState "d1" 0 = PickResult.noContent
    ∧ pickNext pickSingleState "d1" 3 = PickResult.picked pickDemoRowX
    ∧ pickDemoRowY.filename ≠ "x.jpg"
    ∧ pickNext pickDemoState "d1" 7 = PickResult.picked pickDemoRowY := by
  refine ⟨?_, ?_, ?_, ?_⟩
  · exact (pickNext_rotation pickEmptyState "d1" (by decide)).1 (by decide) 0
  · exact (pickNext_rotation pickSingleState "d1" (by decide)).2.1 pickDemoRowX (by decide) 3
  · exact (pickNext_rotation pickDemoState "d1" (by decide)).2.2.1 (by decide) "x.jpg" rfl
      (by decide) 7 pickDemoRowY (by decide)
  · exact (pickNext_rotation pickDemoState "d1" (by decide)).2.2.2 pickDemoRowX pickDemoRowY
      (by decide) (by decide) rfl 7

/-! ## C2, C6, C9: the upload pipeline -/

theorem fsLookup_fsRemove_self (l : List (String × Nat)) (n : String) :
    fsLookup (fsRemove l n) n = none := by
  unfold fsLookup fsRemove
  rw [List.find?_eq_none.mpr]
  · rfl
  · intro x hx
    have hp := List.of_mem_filter hx
    simp at hp ⊢
    exact hp

/-- C2: an upload that reaches the persistence step (nonempty name,
allowed extension, quota available) whose bytes fail the full structural
decode is answered `InvalidImage`; the persisted file is deleted again,
the store is untouched (zero catalogue rows for it), and the thumbnail
tree is untouched (zero retained files for that input). -/
theorem upload_undecodable_atomic (quota : Nat) (st : ServerState) (inp : UploadInput)
    (ts : String) (now : Nat)
    (hname : ¬ inp.origName = "")
    (hext : allowedFile inp.origName = true)
    (hquota : inp.size ≤ (calculateStorageUsage quota st.fs).quotaAvailableBytes)
    (hdec : inp.decodable = false) :
    (uploadFile quota st inp ts now).2 = UploadResult.invalidImage
    ∧ (uploadFile quota st inp ts now).1.db = st.db
    ∧ fsLookup (uploadFile quota st inp ts now).1.fs.uploads (derivedName inp.origName ts) = none
    ∧ (uploadFile quota st inp ts now).1.fs.thumbs = st.fs.thumbs := by
  have hnotlt : ¬ (calculateStorageUsage quota st.fs).quotaAvailableBytes < inp.size :=
    Nat.not_lt.mpr hquota
  simp only [uploadFile, hname, hext, hnotlt, hdec, Bool.false_eq_true, not_false_eq_true,
    if_true, if_false, ite_false, ite_true, not_true, Bool.true_eq_false]
  refine ⟨by trivial, by trivial, ?_, by trivial⟩
  exact fsLookup_fsRemove_self _ _

/-- Empty server state for the upload demonstrations. -/
def uploadDemoState : ServerState := { fs := ⟨[], []⟩, db := emptyDB, currentImage := none }

/-- An upload whose bytes do not decode. -/
def uploadDemoBad : UploadInput :=
  { origName := "a.jpg", size := 100, decodable := false, width := 0, height := 0,
    thumbnail := none, uploaderIp := "1.2.3.4", allowedDevices := [] }

/-- C2 witness: uploading 100 undecodable bytes into an empty store
leaves no file and no catalogue row. -/
theorem upload_undecodable_atomic_witness :
    (uploadFile 1048576 uploadDemoState uploadDemoBad "ts" 5).2 = UploadResult.invalidImage
    ∧ (uploadFile 1048576 uploadDemoState uploadDemoBad "ts" 5).1.db = uploadDemoState.db
    ∧ fsLookup (uploadFile 1048576 uploadDemoState uploadDemoBad "ts" 5).1.fs.uploads
        (derivedName uploadDemoBad.origName "ts") = none
    ∧ (uploadFile 1048576 uploadDemoState uploadDemoBad "ts" 5).1.fs.thumbs
        = uploadDemoState.fs.thumbs :=
  upload_undecodable_atomic 1048576 uploadDemoState uploadDemoBad "ts" 5
    (by decide) (by decide) (by decide) rfl

/-- C6: an upload whose incoming byte length exceeds the available quota
bytes at pre-check time (after the name and extension gates) is rejected
`QuotaExceeded` with the server state — in particular the filesystem —
completely unchanged: nothing is written. -/
theorem upload_quota_precheck (quota : Nat) (st : ServerState) (inp : UploadInput)
    (ts : String) (now : Nat)
    (hname : ¬ inp.origName = "")
    (hext : allowedFile inp.origName = true)
    (hover : (calculateStorageUsage quota st.fs).quotaAvailableBytes < inp.size) :
    uploadFile quota st inp ts now = (st, UploadResult.quotaExceeded) := by
  simp only [uploadFile, hname, hext, hover, not_false_eq_true, if_true, if_false,
    ite_false, ite_true, not_true, Bool.true_eq_false]

/-- Server state with 900 KB already used. -/
def quotaDemoState : ServerState :=
  { fs := ⟨[("old.jpg", 921600)], []⟩, db := emptyDB, currentImage := none }

/-- A 200 KB upload. -/
def quotaDemoInput : UploadInput :=
  { origName := "b.jpg", size := 204800, decodable := true, width := 100, height := 100,
    thumbnail := some 1000, uploaderIp := "1.2.3.4", allowedDevices := [] }

/-- C6 witness: quota 1 MB, 900 KB used, 200 KB upload — rejected with
`QuotaExceeded`, no file written. -/
theorem upload_quota_precheck_witness :
    uploadFile 1048576 quotaDemoState quotaDemoInput "ts" 5
      = (quotaDemoState, UploadResult.quotaExceeded) :=
  upload_quota_precheck 1048576 quotaDemoState quotaDemoInput "ts" 5
    (by decide) (by decide) (by decide)

/-- A successful registration returns the very row it inserted, whose
EXIF columns are all the Python `None` defaults: `add_image_metadata`
calls `create_image` with only filename, uploader, size, MIME type and
dimensions. -/
theorem addImageMetadata_ok_exif_none (db : DB) (fn ip : String) (devs : List String)
    (fsz : Option Nat) (mt : Option String) (w h : Option Nat) (now : Nat) (r : ImageRow)
    (hok : (addImageMetadata db fn ip devs fsz mt w h now).2 = Except.ok r) :
    r.dateTaken = none ∧ r.cameraMake = none ∧ r.cameraModel = none
    ∧ r.gpsLatitude = none ∧ r.gpsLongitude = none ∧ r.gpsAltitude = none
    ∧ r.orientation = none ∧ r.exifJson = none
    ∧ r ∈ (addImageMetadata db fn ip devs fsz mt w h now).1.images := by
  by_cases hdup : imageExists (createOrUpdateUser db ip ip) fn = true
  · simp [addImageMetadata, createImage, hdup] at hok
  · rw [Bool.not_eq_true] at hdup
    simp only [addImageMetadata, createImage, hdup, Bool.false_eq_true, if_false] at hok ⊢
    by_cases hdevs : devs.isEmpty
    · simp only [hdevs, if_true, ite_true] at hok ⊢
      injection hok with h2
      subst h2
      simp
    · rw [Bool.not_eq_true] at hdevs
      simp only [hdevs, Bool.false_eq_true, if_false] at hok ⊢
      split at hok
      · rename_i db3 a hseteq
        injection hok with h2
        subst h2
        have himg := setImageDevices_images
          { users := (createOrUpdateUser db ip ip).users,
            devices := (createOrUpdateUser db ip ip).devices,
            images := (createOrUpdateUser db ip ip).images ++
              [{ id := (createOrUpdateUser db ip ip).nextId, filename := fn, uploaderIp := ip,
                 fileSize := fsz, mimeType := mt, width := w, height := h, uploadTime := now,
                 dateTaken := none, cameraMake := none, cameraModel := none, gpsLatitude := none,
                 gpsLongitude := none, gpsAltitude := none, orientation := none, exifJson := none }],
            assignments := (createOrUpdateUser db ip ip).assignments,
            nextId := (createOrUpdateUser db ip ip).nextId + 1 } fn devs
        rw [hseteq] at himg
        simp only at himg
        refine ⟨rfl, rfl, rfl, rfl, rfl, rfl, rfl, rfl, ?_⟩
        simp only [himg]
        simp
      · rename_i db3 e2 hseteq
        simp at hok

/-- C9: every accepted upload creates its catalogue row with every EXIF
field null, whatever the uploaded bytes contained — the upload path
never invokes EXIF extraction (that lives only in the offline
`backfill_exif` script, which issues a later `UPDATE`). -/
theorem upload_row_exif_empty (quota : Nat) (st : ServerState) (inp : UploadInput)
    (ts : String) (now : Nat) (r : ImageRow)
    (h : (uploadFile quota st inp ts now).2 = UploadResult.uploaded r) :
    r.dateTaken = none ∧ r.cameraMake = none ∧ r.cameraModel = none
    ∧ r.gpsLatitude = none ∧ r.gpsLongitude = none ∧ r.gpsAltitude = none
    ∧ r.orientation = none ∧ r.exifJson = none
    ∧ r ∈ (uploadFile quota st inp ts now).1.db.images := by
  simp only [uploadFile] at h ⊢
  split at h
  · simp at h
  · rename_i hc1
    split at h
    · simp at h
    · rename_i hc2
      split at h
      · simp at h
      · rename_i hc3
        split at h
        · simp at h
        · rename_i hc4
          split at h
          · rename_i db2 img hmeta
            simp only at h
            injection h with h2
            subst h2
            have hlem := addImageMetadata_ok_exif_none st.db (derivedName inp.origName ts)
              inp.uploaderIp inp.allowedDevices (some inp.size)
              (mimeFromExt (derivedName inp.origName ts)) (some inp.width) (some inp.height)
              now img (by rw [hmeta])
            rw [hmeta] at hlem
            simp only [hc1, hc2, hc3, hc4, hmeta, ite_false, ite_true, if_false, if_true]
            simpa using hlem
          · simp at h

/-- A decodable upload assigned to device `d1`. -/
def uploadDemoGood : UploadInput :=
  { origName := "c.jpg", size := 100, decodable := true, width := 4, height := 3,
    thumbnail := some 10, uploaderIp := "1.2.3.4", allowedDevices := ["d1"] }

/-- The catalogue row the demonstration upload creates. -/
def uploadDemoRow : ImageRow :=
  { id := 0, filename := "c_ts.jpg", uploaderIp := "1.2.3.4", fileSize := some 100,
    mimeType := some "image/jpeg", width := some 4, height := some 3, uploadTime := 5,
    dateTaken := none, cameraMake := none, cameraModel := none, gpsLatitude := none,
    gpsLongitude := none, gpsAltitude := none, orientation := none, exifJson := none }

/-- C9 witness: the concrete accepted upload stores a row with all EXIF
columns null. -/
theorem upload_row_exif_empty_witness :
    uploadDemoRow.dateTaken = none ∧ uploadDemoRow.cameraMake = none
    ∧ uploadDemoRow.cameraModel = none ∧ uploadDemoRow.gpsLatitude = none
    ∧ uploadDemoRow.gpsLongitude = none ∧ uploadDemoRow.gpsAltitude = none
    ∧ uploadDemoRow.orientation = none ∧ uploadDemoRow.exifJson = none
    ∧ uploadDemoRow ∈ (uploadFile 1048576 uploadDemoState uploadDemoGood "ts" 5).1.db.images :=
  upload_row_exif_empty 1048576 uploadDemoState uploadDemoGood "ts" 5 uploadDemoRow (by decide)

/-! ## C8: bulk delete over a partially missing batch -/

theorem fsLookup_fsRemove_none (l : List (String × Nat)) (a b : String)
    (h : fsLookup l b = none) : fsLookup (fsRemove l a) b = none := by
  unfold fsLookup at h ⊢
  unfold fsRemove
  rw [List.find?_eq_none.mpr]
  · rfl
  · intro x hx
    have hxl := List.mem_of_mem_filter hx
    have h2 : l.find? (fun p => decide (p.1 = b)) = none := by
      cases hfind : l.find? (fun p => decide (p.1 = b)) with
      | none => rfl
      | some v => rw [hfind] at h; cases h
    exact List.find?_eq_none.mp h2 x hxl

theorem bulkDeleteStep_found (st : ServerState) (cnt : Nat) (errs : List BulkItemError)
    (fn : String) (h1 : ¬ secureFilename fn = "")
    (h2 : (fsLookup st.fs.uploads (secureFilename fn)).isSome = true) :
    (bulkDeleteStep st cnt errs fn).1.fs.uploads = fsRemove st.fs.uploads (secureFilename fn)
    ∧ (bulkDeleteStep st cnt errs fn).2 = (cnt + 1, errs) := by
  obtain ⟨sz, hsz⟩ := Option.isSome_iff_exists.mp h2
  simp only [bulkDeleteStep, h1, hsz, if_false, ite_false]
  cases hth : fsLookup st.fs.thumbs (secureFilename fn) <;> simp [hth]

theorem bulkDeleteStep_missing (st : ServerState) (cnt : Nat) (errs : List BulkItemError)
    (fn : String) (h1 : ¬ secureFilename fn = "")
    (h2 : fsLookup st.fs.uploads (secureFilename fn) = none) :
    (bulkDeleteStep st cnt errs fn).2 = (cnt, errs) := by
  simp only [bulkDeleteStep, h1, h2, if_false, ite_false]
  cases hth : fsLookup st.fs.thumbs (secureFilename fn) <;> simp [hth]

/-- The image row backing `a.jpg` in the bulk-delete scenario. -/
def bulkDemoRow : ImageRow :=
  ⟨0, "a.jpg", "u", some 100, none, none, none, 1, none, none, none, none, none, none, none, none⟩

/-- Scenario state: `a.jpg` exists on disk and in the catalogue;
`missing.jpg` does not exist anywhere. -/
def bulkDemoState : ServerState :=
  { fs := ⟨[("a.jpg", 100)], []⟩,
    db := { users := [], devices := [], images := [bulkDemoRow],
            assignments := [], nextId := 1 },
    currentImage := none }

/-- C8 counterexample: bulk-deleting `["a.jpg", "missing.jpg"]` where
only `a.jpg` exists yields `deleted_count = 1` with an EMPTY error list
and the full-success response — not the claimed single error entry for
`missing.jpg`.  The loop body only appends an error entry when a step
raises; a file absent from disk is skipped silently and the catalogue
delete for it is a no-op whose `False` result is ignored. -/
theorem bulkDelete_missing_error_cex :
    (bulkDeleteImages bulkDemoState ["a.jpg", "missing.jpg"]).2
      = BulkDeleteResult.fullSuccess ⟨1, 2, []⟩ := by decide

/-- C8 (amended): for a bulk-delete request over `[a, b]` where `a`
exists on disk and `b` does not, the summary reports
`deleted_count = 1` and an empty error list (the missing item is
silently skipped, and no per-item fault raises out of the loop), so the
request is answered as a full success. -/
theorem bulkDelete_missing_skipped (st : ServerState) (a b : String)
    (ha : ¬ a = "") (hb : ¬ b = "")
    (hexist : (fsLookup st.fs.uploads a).isSome = true)
    (hmiss : fsLookup st.fs.uploads b = none) :
    (bulkDeleteImages st [a, b]).2 = BulkDeleteResult.fullSuccess ⟨1, 2, []⟩ := by
  have hstep1 := bulkDeleteStep_found st 0 [] a ha hexist
  have hmiss2 : fsLookup (bulkDeleteStep st 0 [] a).1.fs.uploads b = none := by
    rw [hstep1.1]
    exact fsLookup_fsRemove_none _ _ _ hmiss
  have hstep2 := bulkDeleteStep_missing (bulkDeleteStep st 0 [] a).1 1 [] b hb hmiss2
  simp only [bulkDeleteImages, List.foldl, List.isEmpty, List.length]
  simp only [hstep1.2, hstep2]
  norm_num

/-- C8 witness: the amended theorem applied to the scenario state. -/
theorem bulkDelete_missing_skipped_witness :
    (bulkDeleteImages bulkDemoState ["a.jpg", "missing.jpg"]).2
      = BulkDeleteResult.fullSuccess ⟨1, 2, ([] : List BulkItemError)⟩ :=
  bulkDelete_missing_skipped bulkDemoState "a.jpg" "missing.jpg"
    (by decide) (by decide) (by decide) (by decide)

/-! ## C10: single delete clears the current-image pointer -/

/-- C10: whenever the single-image delete endpoint succeeds for a
filename, the process-wide currently-displayed pointer afterwards does
not name that file: it is cleared when it pointed there and untouched
otherwise. -/
theorem deleteImage_clears_current (st : ServerState) (f : String) (st2 : ServerState)
    (h : deleteImageEndpoint st f = (st2, DeleteResult.deleted)) :
    ¬ st2.currentImage = some (secureFilename f) := by
  simp only [deleteImageEndpoint] at h
  cases hlook : fsLookup st.fs.uploads (secureFilename f) with
  | none =>
    rw [hlook] at h
    simp at h
  | some sz =>
    rw [hlook] at h
    injection h with h1 h2
    rw [← h1]
    by_cases hc : st.currentImage = some (secureFilename f) <;> simp [hc]

/-- Scenario state for the delete endpoint: `a.jpg` exists and is the
currently displayed image. -/
def deleteDemoState : ServerState :=
  { fs := ⟨[("a.jpg", 100)], []⟩,
    db := { users := [], devices := [], images := [bulkDemoRow],
            assignments := [], nextId := 1 },
    currentImage := some "a.jpg" }

/-- C10 witness: deleting the currently displayed `a.jpg` leaves a
pointer that no longer names it. -/
theorem deleteImage_clears_current_witness :
    ¬ (deleteImageEndpoint deleteDemoState "a.jpg").1.currentImage
        = some (secureFilename "a.jpg") :=
  deleteImage_clears_current deleteDemoState "a.jpg"
    (deleteImageEndpoint deleteDemoState "a.jpg").1 (by decide)

end FrameSync
